import Mathlib

/-!
Verification of meqtrees-cattery claims against a shallow embedding of
src/Siamese/OMS/analytic_beams.py and src/Calico/OMS/solvable_sky_jones.py.
Python floats are abstracted: parsing is a parameter pf : String → Option A
and stored sizes live in an arbitrary type A, since no claim depends on
floating-point arithmetic itself.
-/

namespace Spec2Proof

/-! ## Siamese/OMS/analytic_beams.py -/

/-- Tokenizer for Python str.split() with no argument: split the character list
on whitespace runs, dropping empty tokens; cur accumulates the current token in
reverse. -/
def splitWSAux (cur : List Char) : List Char → List (List Char)
  | [] => if cur.isEmpty then [] else [cur.reverse]
  | c :: cs =>
    if c.isWhitespace then
      if cur.isEmpty then splitWSAux [] cs
      else cur.reverse :: splitWSAux [] cs
    else splitWSAux (c :: cur) cs

/-- Python str.split() with no argument: split on whitespace, dropping empty tokens. -/
def pySplitWhitespace (s : String) : List String :=
  (splitWSAux [] s.data).map (fun cs => String.mk cs)

/-- Tokenizer for Python str.split(" "): split on single spaces, keeping empty
tokens (as Python does). -/
def splitOnSpaceAux (cur : List Char) : List Char → List (List Char)
  | [] => [cur.reverse]
  | c :: cs =>
    if c = ' ' then cur.reverse :: splitOnSpaceAux [] cs
    else splitOnSpaceAux (c :: cur) cs

/-- Python str.split(" "): split on single spaces, keeping empty tokens. -/
def pySplitOnSpace (s : String) : List String :=
  (splitOnSpaceAux [] s.data).map (fun cs => String.mk cs)

/-- Python map(float, tokens) inside the try block of prepare: succeeds with the list
of parsed values iff every token parses; the float parser is the parameter pf. -/
def pyMapParse {A : Type} (pf : String → Option A) : List String → Option (List A)
  | [] => some []
  | t :: ts =>
    match pf t, pyMapParse pf ts with
    | some v, some vs => some (v :: vs)
    | _, _ => none

/-- Options of WSRT_cos3_beam relevant to prepare: dish_sizes (already passed
through str()) and ell. -/
structure BeamOptions (A : Type) where
  dish_sizes : String
  ell : A
deriving Repr, DecidableEq

/-- Mutable attributes of a WSRT_cos3_beam instance touched by prepare/compute. -/
structure BeamState (A : Type) where
  _prepared : Bool := false
  ns : Option String := none
  _sizes : List A := []
  _per_station : Bool := false
  _ellnode : Option (List A) := none
deriving Repr, DecidableEq

/-- WSRT_cos3_beam.prepare (analytic_beams.py lines 75-87). Note self.ns is assigned
before the try block; the except clause raises RuntimeError. -/
def WSRT_cos3_beam.prepare {A : Type} [Neg A] [OfNat A 0] [DecidableEq A]
    (pf : String → Option A) (opts : BeamOptions A) (ns : String)
    (st : BeamState A) : Except String (BeamState A) :=
  if st._prepared = false then
    let st1 := { st with ns := some ns }
    match pyMapParse pf (pySplitWhitespace opts.dish_sizes) with
    | none => Except.error "illegal dish sizes specification"
    | some sizes =>
      Except.ok { st1 with
        _sizes := sizes
        _per_station := decide (sizes.length > 1)
        _ellnode := if opts.ell ≠ 0 then some [opts.ell, -opts.ell] else none
        _prepared := true }
  else Except.ok st

/-- The dish-size lookup of WSRT_cos3_beam.compute (analytic_beams.py line 100):
self._sizes[min(p, len(self._sizes)-1)]. -/
def WSRT_cos3_beam.computeDishSize {A : Type} (st : BeamState A) (p : Nat) : Option A :=
  st._sizes.get? (min p (st._sizes.length - 1))

/-- The list of available beam models, by label (analytic_beams.py lines 206-208). -/
def MODELS : List String := ["wsrt_cos3"]

/-- The model-selection loop of the module-level compute_jones (lines 131-135).
The loop condition tests globals()["use_" + model.label] where model is the
comprehension variable leaked at module scope from the TDLCompileMenu construction
(lines 210-213), i.e. the LAST element of MODELS, not the loop variable beam_model;
testLabel carries that leaked value. The for-else raises when no iteration breaks. -/
def selectLoop (testLabel : String) (toggles : String → Bool) :
    List String → Except String String
  | [] => Except.error "no beam model selected"
  | m :: rest =>
    if toggles ("use_" ++ testLabel) then Except.ok m
    else selectLoop testLabel toggles rest

/-- Beam-model selection as performed by compute_jones over MODELS. -/
def select_beam_model (models : List String) (toggles : String → Bool) :
    Except String String :=
  selectLoop ((models.getLast?).getD "") toggles models

/-- Result of the module-level compute_jones: which model was selected, the state
produced by its prepare, and the per-source/per-station beam nodes built. -/
structure ABResult (A : Type) where
  beam_model : String
  prepared : BeamState A
  beamNodes : List (String × Nat)
deriving Repr, DecidableEq

/-- Module-level compute_jones of analytic_beams.py (lines 121-162): select a beam
model (raising when none is toggled on), call its prepare, then build one beam node
per source/station pair. -/
def analytic_beams.compute_jones {A : Type} [Neg A] [OfNat A 0] [DecidableEq A]
    (toggles : String → Bool) (pf : String → Option A) (opts : BeamOptions A)
    (st : BeamState A) (sources : List String) (stations : List Nat) :
    Except String (ABResult A) := do
  let bm ← select_beam_model MODELS toggles
  let st2 ← WSRT_cos3_beam.prepare pf opts "JonesSubscope" st
  Except.ok { beam_model := bm, prepared := st2,
              beamNodes := sources.flatMap (fun s => stations.map (fun p => (s, p))) }

/-! ## Calico/OMS/solvable_sky_jones.py : common data model -/

/-- A Meow source: a name plus string-valued attributes (get_attr). -/
structure Source where
  name : String
  attrs : List (String × String) := []
deriving Repr, DecidableEq

/-- src.get_attr(tag): the attribute value when present. -/
def Source.get_attr (src : Source) (t : String) : Option String :=
  (src.attrs.find? (fun a => a.1 == t)).map (fun a => a.2)

/-- A node name is its chain of qualifiers, e.g. jones(src,p,"xx","r"). -/
abbrev NodeName := List String

/-- A node together with the tags attached to it at creation. -/
structure TaggedNode where
  name : NodeName
  tags : List String
deriving Repr, DecidableEq

/-- nodes.search(tags=...): all nodes carrying every requested tag. -/
def searchTags (nodes : List TaggedNode) (tags : List String) : List NodeName :=
  (nodes.filter (fun n => tags.all (fun t => n.tags.contains t))).map (fun n => n.name)

/-- ParmGroup.Subgroup: a named list of parameters. -/
structure Subgroup where
  name : String
  parms : List NodeName
deriving Repr, DecidableEq

/-- ParmGroup.ParmGroup: a named parameter group with optional subgroups. -/
structure ParmGroup where
  name : String
  parms : List NodeName
  subgroups : List Subgroup
  table_name : String
deriving Repr, DecidableEq

/-- ParmGroup.SolveJob: a registered solve job over one parm group. -/
structure SolveJob where
  jobname : String
  title : String
  pg : ParmGroup
deriving Repr, DecidableEq

/-- The external registry that ParmGroup.SolveJob appends to. -/
abbrev Registry := List SolveJob

/-! ## DiagAmplPhase -/

/-- Modelled from the spec: Meow.Jones.gain_ap_matrix is code of this repository
that is not under src/. Per the spec it builds, under the node family of the given
source and for each station of the series, a diagonal amplitude/phase gain matrix
whose amplitude parameters are tagged "solvable ampl" and whose phase parameters
are tagged "solvable phase". -/
def gain_ap_matrix (srcName : String) (stations : List Nat) : List TaggedNode :=
  stations.flatMap (fun p =>
    [ { name := [srcName, toString p, "ampl"], tags := ["solvable", "ampl"] },
      { name := [srcName, toString p, "phase"], tags := ["solvable", "phase"] } ])

/-- The source-subset selection of DiagAmplPhase.compute_jones (lines 74-76):
when the subset option differs from "all", keep exactly the sources whose name is
in the subset string split on single spaces. -/
def dap_selected (subset : String) (sources : List Source) : List Source :=
  if subset ≠ "all" then
    sources.filter (fun src => (pySplitOnSpace subset).contains src.name)
  else sources

/-- Everything DiagAmplPhase.compute_jones builds on its successful path. -/
structure DAPResult where
  appliedSources : List Source
  nodes : List TaggedNode
  pg_phase : ParmGroup
  pg_ampl : ParmGroup
deriving Repr, DecidableEq

/-- DiagAmplPhase.compute_jones (solvable_sky_jones.py lines 71-107): filter the
sources by the subset option, return None when nothing is left, otherwise build a
gain amplitude/phase matrix per source over the station series, one phase and one
ampl subgroup per source, the two parm groups, and register the two solve jobs. -/
def DiagAmplPhase.compute_jones (subset : String) (sources : List Source)
    (stations : List Nat) (label : String) (reg : Registry) :
    Option DAPResult × Registry :=
  let sources := dap_selected subset sources
  if sources.isEmpty then (none, reg)
  else
    let nodes := sources.flatMap (fun src => gain_ap_matrix src.name stations)
    let subgroups_phase := sources.map (fun src =>
      Subgroup.mk src.name (searchTags (gain_ap_matrix src.name stations) ["solvable", "phase"]))
    let subgroups_ampl := sources.map (fun src =>
      Subgroup.mk src.name (searchTags (gain_ap_matrix src.name stations) ["solvable", "ampl"]))
    let pg_phase : ParmGroup :=
      { name := label ++ "_phase", parms := searchTags nodes ["solvable", "phase"],
        subgroups := subgroups_phase, table_name := label ++ "_phase.mep" }
    let pg_ampl : ParmGroup :=
      { name := label ++ "_ampl", parms := searchTags nodes ["solvable", "ampl"],
        subgroups := subgroups_ampl, table_name := label ++ "_ampl.mep" }
    let reg := reg ++
      [ SolveJob.mk ("cal_" ++ label ++ "_phase") ("Calibrate " ++ label ++ " phases") pg_phase,
        SolveJob.mk ("cal_" ++ label ++ "_ampl") ("Calibrate " ++ label ++ " amplitudes") pg_ampl ]
    (some (DAPResult.mk sources nodes pg_phase pg_ampl), reg)

/-! ## IntrinsicFR -/

/-- Meq expression trees as built by IntrinsicFR.compute_jones. -/
inductive FRExpr : Type
  | parm (value : Int) (tags : List String)
  | freq
  | sqr (e : FRExpr)
  | div (a b : FRExpr)
  | cos (e : FRExpr)
  | sin (e : FRExpr)
  | neg (e : FRExpr)
  | matrix22 (exx exy eyx eyy : FRExpr)
  | identity (e : FRExpr)
  | ref (n : NodeName)
deriving Repr, DecidableEq

/-- Everything IntrinsicFR.compute_jones builds. -/
structure FRResult where
  appliedSources : List Source
  bindings : List (NodeName × FRExpr)
  pg_fr : ParmGroup
deriving Repr, DecidableEq

/-- The subset selection of IntrinsicFR.compute_jones (lines 288-290):
[ sources[i] for i in srclist ]. The comprehension evaluates left to right and an
out-of-range index raises IndexError before anything is built or registered,
which List.mapM over Option reproduces (short-circuiting on the first failure).
The subset option string goes through Meow.OptionTools.ListOptionParser, which is
repository code not under src/; it is abstracted as the already-parsed list of
selected indices, with none modelling subset = None (all sources). -/
def frSelectSources (subset : Option (List Nat)) (sources : List Source) :
    Except String (List Source) :=
  match subset with
  | some idxs =>
    match idxs.mapM (fun i => sources.get? i) with
    | some sel => Except.ok sel
    | none => Except.error "IndexError: list index out of range"
  | none => Except.ok sources

/-- IntrinsicFR.compute_jones (solvable_sky_jones.py lines 285-316). -/
def IntrinsicFR.compute_jones (subset : Option (List Nat)) (sources : List Source)
    (stations : List Nat) (tags : List String) (label : String) (reg : Registry) :
    Except String (FRResult × Registry) := do
  let sources ← frSelectSources subset sources
  let tags := tags ++ ["solvable"]
  let rm_parm := FRExpr.parm 0 (tags ++ ["rm"])
  let bindings := sources.flatMap (fun src =>
    [ ([src.name, "RM"], rm_parm),
      ([src.name, "fr"], FRExpr.div (FRExpr.ref [src.name, "RM"]) (FRExpr.sqr FRExpr.freq)),
      ([src.name, "cos"], FRExpr.cos (FRExpr.ref [src.name, "fr"])),
      ([src.name, "sin"], FRExpr.sin (FRExpr.ref [src.name, "fr"])),
      ([src.name], FRExpr.matrix22
          (FRExpr.ref [src.name, "cos"])
          (FRExpr.neg (FRExpr.ref [src.name, "sin"]))
          (FRExpr.ref [src.name, "sin"])
          (FRExpr.ref [src.name, "cos"])) ]
    ++ stations.map (fun p => ([src.name, toString p], FRExpr.identity (FRExpr.ref [src.name]))))
  let pg_fr : ParmGroup :=
    { name := label ++ "_fr", parms := sources.map (fun src => [src.name, "RM"]),
      subgroups := [], table_name := label ++ "_fr.fmep" }
  Except.ok (FRResult.mk sources bindings pg_fr,
    reg ++ [ SolveJob.mk ("cal_" ++ label ++ "_fr") ("Calibrate " ++ label) pg_fr ])

/-! ## FullRealImag / DiagRealImag -/

/-- Insertion of an element into a list sorted by the boolean order le. -/
def insertSortedBy {A : Type} (le : A → A → Bool) (a : A) : List A → List A
  | [] => [a]
  | b :: bs => if le a b then a :: b :: bs else b :: insertSortedBy le a bs

/-- Insertion sort by the boolean order le, modelling Python sorted / list.sort. -/
def sortBy {A : Type} (le : A → A → Bool) : List A → List A
  | [] => []
  | a :: as => insertSortedBy le a (sortBy le as)

/-- Deduplication keeping first occurrences, modelling set(...) (order is
irrelevant because the result is sorted afterwards). -/
def dedupKeepFirst : List String → List String
  | [] => []
  | a :: as => a :: (dedupKeepFirst as).filter (fun b => b ≠ a)

/-- sorted(set(l)) on strings. -/
def pyUniqSorted (l : List String) : List String :=
  sortBy (fun a b => decide (a ≤ b)) (dedupKeepFirst l)

/-- The compile options of FullRealImag (and DiagRealImag), plus the _offdiag
flag set by the constructors; complex initial values are (re, im) pairs. -/
structure FRIConfig where
  matrix_type : String
  init_diag : Int × Int
  init_offdiag : Int × Int
  name_tag : Option String
  independent_solve : Bool
  _offdiag : Bool
deriving Repr, DecidableEq

/-- A Meq.Parm definition: initial value, tags, solve_group. -/
structure PDef where
  value : Int
  tags : List String
  solve_group : String
deriving Repr, DecidableEq

/-- A created parm node: its name plus the definition it was created from. -/
structure ParmNode where
  name : NodeName
  pdef : PDef
deriving Repr, DecidableEq

/-- make_element (solvable_sky_jones.py lines 155-166): creates the r (and, in
complex mode, i) parm children of the element jj from parmdef and returns the
created parms. When parmdef is None, Python subscripts None (parmdef[0]) and
raises a TypeError. -/
def make_element (matrix_type : String) (jj : NodeName) (parmdef : Option (PDef × PDef)) :
    Except String (List ParmNode) :=
  match parmdef with
  | none => Except.error "TypeError: parmdef is None"
  | some pd =>
    if matrix_type = "real" then
      Except.ok [ParmNode.mk (jj ++ ["r"]) pd.1]
    else
      Except.ok [ParmNode.mk (jj ++ ["r"]) pd.1, ParmNode.mk (jj ++ ["i"]) pd.2]

/-- The source-name to Jones-name map (lines 171-181): with a name_tag, a source
whose tag value is a string uses that value, otherwise its own name. -/
def jones_name (cfg : FRIConfig) (sources : List Source) : List (String × String) :=
  match cfg.name_tag with
  | some t => sources.map (fun src =>
      (src.name, match src.get_attr t with | some s => s | none => src.name))
  | none => sources.map (fun src => (src.name, src.name))

/-- The per-station loop (lines 196-203) for one Jones name: build the Matrix22
elements in Python evaluation order xx, xy, yx, yy, collecting diagonal and
off-diagonal parms; off-diagonal elements are the constant 0 when _offdiag is
unset. Polarization labels follow Context.observation.circular(). -/
def jonesStations (cfg : FRIConfig) (circular : Bool) (src : String)
    (diag_pdefs offdiag_pdefs : Option (PDef × PDef)) :
    List Nat → Except String (List ParmNode × List ParmNode)
  | [] => Except.ok ([], [])
  | p :: rest => do
    let x := if circular then "R" else "x"
    let y := if circular then "L" else "y"
    let jj : NodeName := [src, toString p]
    let dxx ← make_element cfg.matrix_type (jj ++ [x ++ x]) diag_pdefs
    let oxy ← if cfg._offdiag then
        make_element cfg.matrix_type (jj ++ [x ++ y]) offdiag_pdefs
      else Except.ok []
    let oyx ← if cfg._offdiag then
        make_element cfg.matrix_type (jj ++ [y ++ x]) offdiag_pdefs
      else Except.ok []
    let dyy ← make_element cfg.matrix_type (jj ++ [y ++ y]) diag_pdefs
    let (ds, os) ← jonesStations cfg circular src diag_pdefs offdiag_pdefs rest
    Except.ok (dxx ++ dyy ++ ds, oxy ++ oyx ++ os)

/-- The loop over unique Jones names (lines 185-210). diag_pdefs is (re)assigned
when absent or when solving independently; the corresponding off-diagonal
assignment at line 191 stores into the misspelled fresh variable offdiag_pdfefs,
a dead store, so offdiag_pdefs keeps its initial value None throughout (it is
therefore not threaded here, matching the code, not the intent). Returns the
accumulated diagonal and off-diagonal parms and the per-name subgroups. -/
def jonesSources (cfg : FRIConfig) (circular : Bool) (tags : List String)
    (stations : List Nat) (diag_pdefs : Option (PDef × PDef)) :
    List String → Except String (List ParmNode × List ParmNode × List Subgroup × List Subgroup)
  | [] => Except.ok ([], [], [], [])
  | src :: rest => do
    let sg := if cfg.independent_solve then src else ""
    let diag_pdefs :=
      if diag_pdefs.isNone || cfg.independent_solve then
        some (PDef.mk cfg.init_diag.1 (tags ++ ["diag", "real"]) sg,
              PDef.mk cfg.init_diag.2 (tags ++ ["diag", "imag"]) sg)
      else diag_pdefs
    let (sgdiag, sgoff) ← jonesStations cfg circular src diag_pdefs none stations
    let (ds, os, subd, subo) ← jonesSources cfg circular tags stations diag_pdefs rest
    Except.ok (sgdiag ++ ds, sgoff ++ os,
               Subgroup.mk src (sgdiag.map ParmNode.name) :: subd,
               Subgroup.mk src (sgoff.map ParmNode.name) :: subo)

/-- Everything FullRealImag.compute_jones builds on its successful path. -/
structure FRIResult where
  uniq : List String
  parms_diag : List ParmNode
  parms_offdiag : List ParmNode
  pg_diag : ParmGroup
  pg_offdiag : Option ParmGroup
  links : List (NodeName × NodeName)
deriving Repr, DecidableEq

/-- FullRealImag.compute_jones (solvable_sky_jones.py lines 131-245): build the
Jones-name map, loop over the sorted unique Jones names creating 2x2 matrices per
station, connect renamed sources through Meq.Identity, sort the subgroups, build
the diagonal (and, when _offdiag, off-diagonal) parm groups and register the
corresponding solve jobs. -/
def FullRealImag.compute_jones (cfg : FRIConfig) (circular : Bool)
    (sources : List Source) (stations : List Nat) (tags : List String)
    (label : String) (reg : Registry) : Except String (FRIResult × Registry) := do
  let tags := tags ++ ["solvable"]
  let jn := jones_name cfg sources
  let uniq := pyUniqSorted (jn.map Prod.snd)
  let (parms_diag, parms_offdiag, subd, subo) ←
    jonesSources cfg circular tags stations none uniq
  let links := sources.flatMap (fun src =>
    match (jn.find? (fun a => a.1 == src.name)).map Prod.snd with
    | some j =>
      if src.name ≠ j then
        stations.map (fun p => (([src.name, toString p] : NodeName),
                                ([j, toString p] : NodeName)))
      else []
    | none => [])
  let subd := sortBy (fun a b => decide (a.name ≤ b.name)) subd
  let subo := sortBy (fun a b => decide (a.name ≤ b.name)) subo
  let pg_diag : ParmGroup :=
    { name := label ++ "_diag", parms := parms_diag.map ParmNode.name,
      subgroups := subd, table_name := label ++ "_diag.fmep" }
  let pg_offdiag : Option ParmGroup :=
    if cfg._offdiag then
      some { name := label ++ "_offdiag", parms := parms_offdiag.map ParmNode.name,
             subgroups := subo, table_name := label ++ "_offdiag.fmep" }
    else none
  let jobs := [ SolveJob.mk ("cal_" ++ label ++ "_diag")
                  ("Calibrate " ++ label ++ " diagonal terms") pg_diag ]
    ++ (match pg_offdiag with
        | some pg => [ SolveJob.mk ("cal_" ++ label ++ "_offdiag")
                        ("Calibrate " ++ label ++ " off-diagonal terms") pg ]
        | none => [])
  Except.ok (FRIResult.mk uniq parms_diag parms_offdiag pg_diag pg_offdiag links,
             reg ++ jobs)

/-- DiagRealImag (lines 248-266): the same compute_jones inherited from
FullRealImag, with the constructor setting _offdiag to False and init_offdiag
to 0. -/
def DiagRealImag.compute_jones (cfg : FRIConfig) (circular : Bool)
    (sources : List Source) (stations : List Nat) (tags : List String)
    (label : String) (reg : Registry) : Except String (FRIResult × Registry) :=
  FullRealImag.compute_jones
    { cfg with _offdiag := false, init_offdiag := (0, 0) }
    circular sources stations tags label reg

/-! ## Helper lemmas -/

theorem pyMapParse_eq_none_iff {A : Type} (pf : String → Option A) :
    ∀ l : List String, pyMapParse pf l = none ↔ ∃ t ∈ l, pf t = none := by
  intro l
  induction l with
  | nil => simp [pyMapParse]
  | cons t ts ih =>
    cases hpt : pf t with
    | none =>
      simp only [pyMapParse, hpt]
      exact ⟨fun _ => ⟨t, List.mem_cons_self t ts, hpt⟩, fun _ => trivial⟩
    | some v =>
      cases hts : pyMapParse pf ts with
      | none =>
        simp only [pyMapParse, hpt, hts]
        refine ⟨fun _ => ?_, fun _ => trivial⟩
        obtain ⟨u, hu, hpu⟩ := ih.mp hts
        exact ⟨u, List.mem_cons_of_mem t hu, hpu⟩
      | some vs =>
        simp only [pyMapParse, hpt, hts]
        constructor
        · intro hcontr; exact absurd hcontr (by simp)
        · rintro ⟨u, hu, hpu⟩
          rcases List.mem_cons.mp hu with hut | hu2
          · rw [hut] at hpu; rw [hpu] at hpt; exact absurd hpt (by simp)
          · exact absurd (ih.mpr ⟨u, hu2, hpu⟩) (by simp [hts])

/-- A parse function used by concrete witnesses: parses only the token 25. -/
def pfW : String → Option Int := fun s => if s == "25" then some 25 else none

/-! ## Claim theorems: analytic_beams -/

/-- C2: WSRT_cos3_beam.prepare raises RuntimeError "illegal dish sizes
specification" exactly when some whitespace-separated token of the dish_sizes
string fails to parse as a float; on success it stores the parsed list in _sizes
and sets _per_station exactly when more than one size was given. -/
theorem prepare_error_iff {A : Type} [Neg A] [OfNat A 0] [DecidableEq A]
    (pf : String → Option A) (opts : BeamOptions A) (ns : String)
    (st : BeamState A) (h : st._prepared = false) :
    (WSRT_cos3_beam.prepare pf opts ns st
        = Except.error "illegal dish sizes specification"
      ↔ ∃ t ∈ pySplitWhitespace opts.dish_sizes, pf t = none)
    ∧ ∀ sizes, pyMapParse pf (pySplitWhitespace opts.dish_sizes) = some sizes →
        WSRT_cos3_beam.prepare pf opts ns st = Except.ok
          { st with
            ns := some ns
            _sizes := sizes
            _per_station := decide (sizes.length > 1)
            _ellnode := if opts.ell ≠ 0 then some [opts.ell, -opts.ell] else none
            _prepared := true } := by
  constructor
  · rw [← pyMapParse_eq_none_iff]
    cases hm : pyMapParse pf (pySplitWhitespace opts.dish_sizes) with
    | none => simp [WSRT_cos3_beam.prepare, h, hm]
    | some sizes => simp [WSRT_cos3_beam.prepare, h, hm]
  · intro sizes hm
    simp [WSRT_cos3_beam.prepare, h, hm]

theorem prepare_error_iff_witness :
    (({} : BeamState Int)._prepared = false)
    ∧ ((WSRT_cos3_beam.prepare pfW ⟨"25 xx", 0⟩ "ns" {}
          = Except.error "illegal dish sizes specification"
        ↔ ∃ t ∈ pySplitWhitespace "25 xx", pfW t = none)
      ∧ ∀ sizes, pyMapParse pfW (pySplitWhitespace "25 xx") = some sizes →
          WSRT_cos3_beam.prepare pfW ⟨"25 xx", 0⟩ "ns" {} = Except.ok
            { ({} : BeamState Int) with
              ns := some "ns"
              _sizes := sizes
              _per_station := decide (sizes.length > 1)
              _ellnode := if (0 : Int) ≠ 0 then some [0, -0] else none
              _prepared := true }) :=
  ⟨rfl, prepare_error_iff pfW ⟨"25 xx", 0⟩ "ns" {} rfl⟩

/-- C9: WSRT_cos3_beam.prepare is idempotent — after a successful call, every
later call (with any parser, options, or nodescope, in particular changed
dish_sizes or ell) returns the state completely unchanged. -/
theorem prepare_idempotent {A : Type} [Neg A] [OfNat A 0] [DecidableEq A]
    (pf pf2 : String → Option A) (opts opts2 : BeamOptions A) (ns ns2 : String)
    (st st2 : BeamState A)
    (h : WSRT_cos3_beam.prepare pf opts ns st = Except.ok st2) :
    st2._prepared = true
    ∧ WSRT_cos3_beam.prepare pf2 opts2 ns2 st2 = Except.ok st2 := by
  have hp : st2._prepared = true := by
    by_cases hst : st._prepared = false
    · cases hm : pyMapParse pf (pySplitWhitespace opts.dish_sizes) with
      | none => simp [WSRT_cos3_beam.prepare, hst, hm] at h
      | some sizes =>
        simp [WSRT_cos3_beam.prepare, hst, hm] at h
        rw [← h]
    · simp [WSRT_cos3_beam.prepare, hst] at h
      rw [← h]
      simpa using hst
  exact ⟨hp, by simp [WSRT_cos3_beam.prepare, hp]⟩

theorem prepare_idempotent_witness :
    (WSRT_cos3_beam.prepare pfW ⟨"25", 0⟩ "ns" {}
        = Except.ok (⟨true, some "ns", [25], false, none⟩ : BeamState Int))
    ∧ ((⟨true, some "ns", [25], false, none⟩ : BeamState Int)._prepared = true
      ∧ WSRT_cos3_beam.prepare pfW ⟨"13 xx", 7⟩ "other"
          (⟨true, some "ns", [25], false, none⟩ : BeamState Int)
        = Except.ok ⟨true, some "ns", [25], false, none⟩) :=
  ⟨rfl, prepare_idempotent pfW pfW ⟨"25", 0⟩ ⟨"13 xx", 7⟩ "ns" "other" {} _ rfl⟩

/-- C10: the dish-size index min(p, len(_sizes)-1) read by compute is always in
bounds when _sizes is non-empty: an in-range station index reads its own entry
and an index beyond the end reads the last listed size instead of failing. -/
theorem computeDishSize_inbounds {A : Type} (st : BeamState A) (p : Nat)
    (h : st._sizes ≠ []) :
    min p (st._sizes.length - 1) < st._sizes.length
    ∧ ∃ v, WSRT_cos3_beam.computeDishSize st p = some v
      ∧ (p < st._sizes.length → WSRT_cos3_beam.computeDishSize st p = st._sizes.get? p)
      ∧ (st._sizes.length ≤ p → v = st._sizes.getLast h) := by
  have hlen : 0 < st._sizes.length := List.length_pos.mpr h
  have hbound : min p (st._sizes.length - 1) < st._sizes.length :=
    lt_of_le_of_lt (Nat.min_le_right _ _) (Nat.sub_lt hlen Nat.one_pos)
  refine ⟨hbound, st._sizes.get ⟨_, hbound⟩, List.get?_eq_get hbound, ?_, ?_⟩
  · intro hp
    show st._sizes.get? _ = _
    rw [Nat.min_eq_left (show p ≤ st._sizes.length - 1 from Nat.le_pred_of_lt hp)]
  · intro hp
    have hmin : min p (st._sizes.length - 1) = st._sizes.length - 1 :=
      Nat.min_eq_right (le_trans (Nat.sub_le _ _) hp)
    rw [List.getLast_eq_getElem]
    simp only [List.get_eq_getElem, hmin]

theorem computeDishSize_inbounds_witness :
    ((⟨true, none, [10, 20], true, none⟩ : BeamState Int)._sizes ≠ [])
    ∧ (min 5 ((⟨true, none, [10, 20], true, none⟩ : BeamState Int)._sizes.length - 1)
        < (⟨true, none, [10, 20], true, none⟩ : BeamState Int)._sizes.length
      ∧ ∃ v, WSRT_cos3_beam.computeDishSize
            (⟨true, none, [10, 20], true, none⟩ : BeamState Int) 5 = some v
        ∧ (5 < (⟨true, none, [10, 20], true, none⟩ : BeamState Int)._sizes.length →
            WSRT_cos3_beam.computeDishSize (⟨true, none, [10, 20], true, none⟩ : BeamState Int) 5
              = (⟨true, none, [10, 20], true, none⟩ : BeamState Int)._sizes.get? 5)
        ∧ ((⟨true, none, [10, 20], true, none⟩ : BeamState Int)._sizes.length ≤ 5 →
            v = (⟨true, none, [10, 20], true, none⟩ : BeamState Int)._sizes.getLast (by decide))) :=
  ⟨by decide, computeDishSize_inbounds ⟨true, none, [10, 20], true, none⟩ 5 (by decide)⟩

/-- A toggle assignment turning on only the WSRT model, used by witnesses. -/
def togglesOn : String → Bool := fun s => s == "use_wsrt_cos3"

/-- A toggle assignment turning on no model, used by witnesses. -/
def togglesOff : String → Bool := fun _ => false

/-- C3: the module-level compute_jones raises "no beam model selected" when the
use_wsrt_cos3 toggle is unset; when it is set, the WSRT model (the single entry
of MODELS) is selected and its prepare runs before any beam node is built, the
result being a function of the prepared state. -/
theorem analytic_compute_jones_selects {A : Type} [Neg A] [OfNat A 0] [DecidableEq A]
    (toggles : String → Bool) (pf : String → Option A) (opts : BeamOptions A)
    (st : BeamState A) (sources : List String) (stations : List Nat) :
    (toggles "use_wsrt_cos3" = false →
      analytic_beams.compute_jones toggles pf opts st sources stations
        = Except.error "no beam model selected")
    ∧ (toggles "use_wsrt_cos3" = true →
      select_beam_model MODELS toggles = Except.ok "wsrt_cos3"
      ∧ analytic_beams.compute_jones toggles pf opts st sources stations
        = (WSRT_cos3_beam.prepare pf opts "JonesSubscope" st).map
            (fun st2 => ABResult.mk "wsrt_cos3" st2
              (sources.flatMap (fun s => stations.map (fun p => (s, p)))))) := by
  constructor
  · intro h
    simp [analytic_beams.compute_jones, select_beam_model, MODELS, selectLoop, h,
          Bind.bind, Except.bind]
  · intro h
    have hsel : select_beam_model MODELS toggles = Except.ok "wsrt_cos3" := by
      simp [select_beam_model, MODELS, selectLoop, h]
    refine ⟨hsel, ?_⟩
    cases hpre : WSRT_cos3_beam.prepare pf opts "JonesSubscope" st with
    | error e =>
      simp [analytic_beams.compute_jones, hsel, hpre, Except.map, Bind.bind, Except.bind]
    | ok st2 =>
      simp [analytic_beams.compute_jones, hsel, hpre, Except.map, Bind.bind, Except.bind]

theorem analytic_compute_jones_selects_witness :
    (togglesOn "use_wsrt_cos3" = true
      ∧ select_beam_model MODELS togglesOn = Except.ok "wsrt_cos3"
      ∧ analytic_beams.compute_jones togglesOn pfW ⟨"25", 0⟩ {} ["S1"] [1]
        = (WSRT_cos3_beam.prepare pfW ⟨"25", 0⟩ "JonesSubscope" {}).map
            (fun st2 => ABResult.mk "wsrt_cos3" st2
              ((["S1"] : List String).flatMap (fun s => ([1] : List Nat).map (fun p => (s, p))))))
    ∧ (togglesOff "use_wsrt_cos3" = false
      ∧ analytic_beams.compute_jones togglesOff pfW ⟨"25", 0⟩ {} ["S1"] [1]
        = Except.error "no beam model selected") :=
  ⟨⟨rfl, (analytic_compute_jones_selects togglesOn pfW ⟨"25", 0⟩ {} ["S1"] [1]).2 rfl⟩,
   ⟨rfl, (analytic_compute_jones_selects togglesOff pfW ⟨"25", 0⟩ {} ["S1"] [1]).1 rfl⟩⟩

/-! ## Claim theorems: DiagAmplPhase -/

/-- C5: for a subset string other than "all", the Jones term is applied to exactly
the sources whose name occurs in the subset split on single spaces, keeping input
order; "all" leaves the source list unchanged; and compute_jones applies the term
to exactly that selection. -/
theorem dap_subset_selection (subset : String) (sources : List Source) :
    (subset = "all" → dap_selected subset sources = sources)
    ∧ (subset ≠ "all" →
        (dap_selected subset sources).Sublist sources
        ∧ ∀ src, src ∈ dap_selected subset sources ↔
            src ∈ sources ∧ src.name ∈ pySplitOnSpace subset)
    ∧ ∀ stations label reg r reg2,
        DiagAmplPhase.compute_jones subset sources stations label reg = (some r, reg2) →
        r.appliedSources = dap_selected subset sources := by
  refine ⟨fun h => by simp [dap_selected, h], fun h => ⟨?_, ?_⟩, ?_⟩
  · simp only [dap_selected, if_pos h]
    exact List.filter_sublist sources
  · intro src
    simp [dap_selected, h, List.mem_filter]
  · intro stations label reg r reg2 hcj
    by_cases he : (dap_selected subset sources).isEmpty = true
    · simp [DiagAmplPhase.compute_jones, he] at hcj
    · simp only [Bool.not_eq_true] at he
      simp [DiagAmplPhase.compute_jones, he] at hcj
      rw [← hcj.1]

/-- Concrete sources used by the DiagAmplPhase witnesses. -/
def dapSrcs : List Source := [⟨"S1", []⟩, ⟨"S2", []⟩]

theorem dap_subset_selection_witness :
    ("S1 S3" ≠ "all")
    ∧ ((dap_selected "S1 S3" dapSrcs).Sublist dapSrcs
      ∧ ∀ src, src ∈ dap_selected "S1 S3" dapSrcs ↔
          src ∈ dapSrcs ∧ src.name ∈ pySplitOnSpace "S1 S3") :=
  ⟨by decide, (dap_subset_selection "S1 S3" dapSrcs).2.1 (by decide)⟩

/-- C4: on a non-empty filtered source list, compute_jones builds a gain matrix
per source over the station series and registers exactly the two solve jobs
cal_<label>_phase and cal_<label>_ampl, whose parm groups collect the nodes
tagged "solvable phase" and "solvable ampl" respectively, with one subgroup per
source. -/
theorem dap_compute_jones_solvejobs (subset : String) (sources : List Source)
    (stations : List Nat) (label : String) (reg : Registry)
    (h : dap_selected subset sources ≠ []) :
    ∃ r, DiagAmplPhase.compute_jones subset sources stations label reg
        = (some r, reg ++
            [ SolveJob.mk ("cal_" ++ label ++ "_phase")
                ("Calibrate " ++ label ++ " phases") r.pg_phase,
              SolveJob.mk ("cal_" ++ label ++ "_ampl")
                ("Calibrate " ++ label ++ " amplitudes") r.pg_ampl ])
      ∧ r.appliedSources = dap_selected subset sources
      ∧ r.nodes = (dap_selected subset sources).flatMap
          (fun src => gain_ap_matrix src.name stations)
      ∧ r.pg_phase.name = label ++ "_phase"
      ∧ r.pg_phase.parms = searchTags r.nodes ["solvable", "phase"]
      ∧ r.pg_phase.subgroups.map Subgroup.name
          = (dap_selected subset sources).map Source.name
      ∧ r.pg_ampl.name = label ++ "_ampl"
      ∧ r.pg_ampl.parms = searchTags r.nodes ["solvable", "ampl"]
      ∧ r.pg_ampl.subgroups.map Subgroup.name
          = (dap_selected subset sources).map Source.name := by
  have he : (dap_selected subset sources).isEmpty = false := by
    simpa [List.isEmpty_iff] using h
  refine ⟨⟨dap_selected subset sources,
      (dap_selected subset sources).flatMap (fun src => gain_ap_matrix src.name stations),
      ⟨label ++ "_phase",
        searchTags ((dap_selected subset sources).flatMap
          (fun src => gain_ap_matrix src.name stations)) ["solvable", "phase"],
        (dap_selected subset sources).map (fun src =>
          Subgroup.mk src.name (searchTags (gain_ap_matrix src.name stations) ["solvable", "phase"])),
        label ++ "_phase.mep"⟩,
      ⟨label ++ "_ampl",
        searchTags ((dap_selected subset sources).flatMap
          (fun src => gain_ap_matrix src.name stations)) ["solvable", "ampl"],
        (dap_selected subset sources).map (fun src =>
          Subgroup.mk src.name (searchTags (gain_ap_matrix src.name stations) ["solvable", "ampl"])),
        label ++ "_ampl.mep"⟩⟩, ?_, rfl, rfl, rfl, rfl, ?_, rfl, rfl, ?_⟩
  · simp [DiagAmplPhase.compute_jones, he]
  · simp [List.map_map, Function.comp]
  · simp [List.map_map, Function.comp]

theorem dap_compute_jones_solvejobs_witness :
    (dap_selected "all" dapSrcs ≠ [])
    ∧ ∃ r, DiagAmplPhase.compute_jones "all" dapSrcs [1] "G" []
        = (some r, [] ++
            [ SolveJob.mk ("cal_" ++ "G" ++ "_phase")
                ("Calibrate " ++ "G" ++ " phases") r.pg_phase,
              SolveJob.mk ("cal_" ++ "G" ++ "_ampl")
                ("Calibrate " ++ "G" ++ " amplitudes") r.pg_ampl ])
      ∧ r.appliedSources = dap_selected "all" dapSrcs
      ∧ r.nodes = (dap_selected "all" dapSrcs).flatMap
          (fun src => gain_ap_matrix src.name [1])
      ∧ r.pg_phase.name = "G" ++ "_phase"
      ∧ r.pg_phase.parms = searchTags r.nodes ["solvable", "phase"]
      ∧ r.pg_phase.subgroups.map Subgroup.name
          = (dap_selected "all" dapSrcs).map Source.name
      ∧ r.pg_ampl.name = "G" ++ "_ampl"
      ∧ r.pg_ampl.parms = searchTags r.nodes ["solvable", "ampl"]
      ∧ r.pg_ampl.subgroups.map Subgroup.name
          = (dap_selected "all" dapSrcs).map Source.name :=
  ⟨by decide, dap_compute_jones_solvejobs "all" dapSrcs [1] "G" [] (by decide)⟩

/-- C8: when the subset filter leaves no source, compute_jones returns None and
the solve-job registry is untouched (no parm groups, no solve jobs). -/
theorem dap_compute_jones_empty_none (subset : String) (sources : List Source)
    (stations : List Nat) (label : String) (reg : Registry)
    (h : dap_selected subset sources = []) :
    DiagAmplPhase.compute_jones subset sources stations label reg = (none, reg) := by
  simp [DiagAmplPhase.compute_jones, h]

theorem dap_compute_jones_empty_none_witness :
    (dap_selected "X Y" dapSrcs = [])
    ∧ DiagAmplPhase.compute_jones "X Y" dapSrcs [1] "G" [] = (none, []) :=
  ⟨by decide, dap_compute_jones_empty_none "X Y" dapSrcs [1] "G" [] (by decide)⟩

/-! ## Claim theorems: IntrinsicFR -/

/-- C6: whenever IntrinsicFR.compute_jones returns (i.e. the subset indices are
in range and no IndexError is raised), it has built, for each selected source,
one shared Faraday-rotation matrix [[cos fr, -sin fr], [sin fr, cos fr]] with
fr = RM / Sqr(Freq), a solvable RM parm, every station node an Identity of that
shared per-source matrix, and registered the single solve job cal_<label>_fr
over the parm group of the per-source RM parameters. -/
theorem intrinsicfr_build_spec (subset : Option (List Nat)) (sources : List Source)
    (stations : List Nat) (tags : List String) (label : String) (reg : Registry)
    (r : FRResult) (reg2 : Registry)
    (h : IntrinsicFR.compute_jones subset sources stations tags label reg
          = Except.ok (r, reg2)) :
    (∀ src ∈ r.appliedSources,
        ([src.name], FRExpr.matrix22
            (FRExpr.ref [src.name, "cos"])
            (FRExpr.neg (FRExpr.ref [src.name, "sin"]))
            (FRExpr.ref [src.name, "sin"])
            (FRExpr.ref [src.name, "cos"]))
          ∈ r.bindings
      ∧ ([src.name, "fr"], FRExpr.div (FRExpr.ref [src.name, "RM"]) (FRExpr.sqr FRExpr.freq))
          ∈ r.bindings
      ∧ ([src.name, "RM"], FRExpr.parm 0 ((tags ++ ["solvable"]) ++ ["rm"]))
          ∈ r.bindings
      ∧ ∀ p ∈ stations,
          ([src.name, toString p], FRExpr.identity (FRExpr.ref [src.name]))
            ∈ r.bindings)
    ∧ r.pg_fr.name = label ++ "_fr"
    ∧ r.pg_fr.parms = r.appliedSources.map (fun src => [src.name, "RM"])
    ∧ reg2 = reg ++ [SolveJob.mk ("cal_" ++ label ++ "_fr") ("Calibrate " ++ label)
        r.pg_fr] := by
  cases hsel : frSelectSources subset sources with
  | error e =>
    simp [IntrinsicFR.compute_jones, hsel, Bind.bind, Except.bind] at h
  | ok sel =>
    simp only [IntrinsicFR.compute_jones, hsel, Bind.bind, Except.bind,
               Except.ok.injEq, Prod.mk.injEq] at h
    obtain ⟨hr, hreg⟩ := h
    subst hr
    subst hreg
    refine ⟨?_, by simp, by simp, by simp⟩
    intro src hsrc
    refine ⟨?_, ?_, ?_, ?_⟩
    · exact List.mem_flatMap.mpr ⟨src, hsrc, by simp⟩
    · exact List.mem_flatMap.mpr ⟨src, hsrc, by simp⟩
    · exact List.mem_flatMap.mpr ⟨src, hsrc, by simp⟩
    · intro p hp
      refine List.mem_flatMap.mpr ⟨src, hsrc, ?_⟩
      exact List.mem_append_right _ (List.mem_map.mpr ⟨p, hp, rfl⟩)

/-- The concrete FRResult built by the IntrinsicFR witness run. -/
def frW : FRResult :=
  ⟨[⟨"S0", []⟩],
   [ (["S0", "RM"], FRExpr.parm 0 ["solvable", "rm"]),
     (["S0", "fr"], FRExpr.div (FRExpr.ref ["S0", "RM"]) (FRExpr.sqr FRExpr.freq)),
     (["S0", "cos"], FRExpr.cos (FRExpr.ref ["S0", "fr"])),
     (["S0", "sin"], FRExpr.sin (FRExpr.ref ["S0", "fr"])),
     (["S0"], FRExpr.matrix22
        (FRExpr.ref ["S0", "cos"])
        (FRExpr.neg (FRExpr.ref ["S0", "sin"]))
        (FRExpr.ref ["S0", "sin"])
        (FRExpr.ref ["S0", "cos"])),
     (["S0", "3"], FRExpr.identity (FRExpr.ref ["S0"])) ],
   ⟨"F_fr", [["S0", "RM"]], [], "F_fr.fmep"⟩⟩

/-- The registry produced by the IntrinsicFR witness run. -/
def frRegW : Registry :=
  [⟨"cal_F_fr", "Calibrate F", ⟨"F_fr", [["S0", "RM"]], [], "F_fr.fmep"⟩⟩]

theorem intrinsicfr_build_spec_witness :
    (IntrinsicFR.compute_jones none [⟨"S0", []⟩] [3] [] "F" [] = Except.ok (frW, frRegW))
    ∧ ((∀ src ∈ frW.appliedSources,
          ([src.name], FRExpr.matrix22
              (FRExpr.ref [src.name, "cos"])
              (FRExpr.neg (FRExpr.ref [src.name, "sin"]))
              (FRExpr.ref [src.name, "sin"])
              (FRExpr.ref [src.name, "cos"]))
            ∈ frW.bindings
        ∧ ([src.name, "fr"], FRExpr.div (FRExpr.ref [src.name, "RM"]) (FRExpr.sqr FRExpr.freq))
            ∈ frW.bindings
        ∧ ([src.name, "RM"], FRExpr.parm 0 ((([] : List String) ++ ["solvable"]) ++ ["rm"]))
            ∈ frW.bindings
        ∧ ∀ p ∈ ([3] : List Nat),
            ([src.name, toString p], FRExpr.identity (FRExpr.ref [src.name]))
              ∈ frW.bindings)
      ∧ frW.pg_fr.name = "F" ++ "_fr"
      ∧ frW.pg_fr.parms = frW.appliedSources.map (fun src => [src.name, "RM"])
      ∧ frRegW = [] ++ [SolveJob.mk ("cal_" ++ "F" ++ "_fr") ("Calibrate " ++ "F")
          frW.pg_fr]) :=
  ⟨rfl, intrinsicfr_build_spec none [⟨"S0", []⟩] [3] [] "F" [] frW frRegW rfl⟩

/-! ## Claim theorems: FullRealImag / DiagRealImag -/

theorem insertSortedBy_ne_nil {A : Type} (le : A → A → Bool) (a : A) (l : List A) :
    insertSortedBy le a l ≠ [] := by
  cases l with
  | nil => simp [insertSortedBy]
  | cons b bs =>
    simp only [insertSortedBy]
    split <;> simp

theorem sortBy_ne_nil {A : Type} (le : A → A → Bool) (l : List A) (h : l ≠ []) :
    sortBy le l ≠ [] := by
  cases l with
  | nil => exact absurd rfl h
  | cons a as => exact insertSortedBy_ne_nil le a (sortBy le as)

theorem pyUniqSorted_ne_nil (l : List String) (h : l ≠ []) : pyUniqSorted l ≠ [] := by
  apply sortBy_ne_nil
  cases l with
  | nil => exact absurd rfl h
  | cons a as => simp [dedupKeepFirst]

theorem jonesStations_offdiag_error (cfg : FRIConfig) (circular : Bool) (src : String)
    (pd : PDef × PDef) (p : Nat) (ps : List Nat) (hoff : cfg._offdiag = true) :
    jonesStations cfg circular src (some pd) none (p :: ps)
      = Except.error "TypeError: parmdef is None" := by
  by_cases hmt : cfg.matrix_type = "real" <;>
    simp [jonesStations, make_element, hmt, hoff, Bind.bind, Except.bind]

theorem jonesSources_offdiag_error (cfg : FRIConfig) (circular : Bool)
    (tags : List String) (p : Nat) (ps : List Nat) (src : String) (rest : List String)
    (hoff : cfg._offdiag = true) :
    jonesSources cfg circular tags (p :: ps) none (src :: rest)
      = Except.error "TypeError: parmdef is None" := by
  simp [jonesSources, Bind.bind, Except.bind,
        jonesStations_offdiag_error cfg circular src _ p ps hoff]

/-- C1 is contradicted by the code: with off-diagonal terms enabled (as in
FullRealImag), compute_jones raises a TypeError for every non-empty source and
station list, because line 191 assigns the misspelled variable offdiag_pdfefs,
leaving offdiag_pdefs equal to None when make_element subscripts it at the first
off-diagonal element; no matrix is completed and no solve job is registered. -/
theorem fullrealimag_offdiag_raises (cfg : FRIConfig) (circular : Bool)
    (sources : List Source) (stations : List Nat) (tags : List String)
    (label : String) (reg : Registry)
    (hoff : cfg._offdiag = true) (hs : sources ≠ []) (hp : stations ≠ []) :
    FullRealImag.compute_jones cfg circular sources stations tags label reg
      = Except.error "TypeError: parmdef is None" := by
  have hjn : (jones_name cfg sources).map Prod.snd ≠ [] := by
    cases sources with
    | nil => exact absurd rfl hs
    | cons s ss => cases hnt : cfg.name_tag <;> simp [jones_name, hnt]
  obtain ⟨u, us, hu⟩ :
      ∃ u us, pyUniqSorted ((jones_name cfg sources).map Prod.snd) = u :: us := by
    cases hq : pyUniqSorted ((jones_name cfg sources).map Prod.snd) with
    | nil => exact absurd hq (pyUniqSorted_ne_nil _ hjn)
    | cons u us => exact ⟨u, us, rfl⟩
  obtain ⟨p, ps, hps⟩ : ∃ p ps, stations = p :: ps := by
    cases stations with
    | nil => exact absurd rfl hp
    | cons p ps => exact ⟨p, ps, rfl⟩
  simp [FullRealImag.compute_jones, hu, hps, Bind.bind, Except.bind,
        jonesSources_offdiag_error cfg circular (tags ++ ["solvable"]) p ps u us hoff]

theorem fullrealimag_offdiag_raises_witness :
    ((⟨"complex", (1, 0), (0, 0), some "G", false, true⟩ : FRIConfig)._offdiag = true
      ∧ ([⟨"S1", []⟩] : List Source) ≠ [] ∧ ([1] : List Nat) ≠ [])
    ∧ FullRealImag.compute_jones ⟨"complex", (1, 0), (0, 0), some "G", false, true⟩
        false [⟨"S1", []⟩] [1] [] "G" []
      = Except.error "TypeError: parmdef is None" :=
  ⟨⟨rfl, by decide, by decide⟩,
   fullrealimag_offdiag_raises ⟨"complex", (1, 0), (0, 0), some "G", false, true⟩
     false [⟨"S1", []⟩] [1] [] "G" [] rfl (by decide) (by decide)⟩

/-- C7 is contradicted by the code on its return behaviour: the four classes share
the compute_jones calling convention, but FullRealImag.compute_jones raises a
TypeError instead of returning the node collection it populated on a minimal
input, while DiagRealImag, DiagAmplPhase and IntrinsicFR return normally on the
same input (the collection, or None on an empty selection). -/
theorem compute_jones_api_divergence :
    FullRealImag.compute_jones ⟨"complex", (1, 0), (0, 0), some "G", false, true⟩
        false [⟨"S1", []⟩] [1] [] "G" []
      = Except.error "TypeError: parmdef is None"
    ∧ (DiagRealImag.compute_jones ⟨"complex", (1, 0), (0, 0), some "G", false, true⟩
        false [⟨"S1", []⟩] [1] [] "G" []).isOk = true
    ∧ ((DiagAmplPhase.compute_jones "all" [⟨"S1", []⟩] [1] "G" []).1).isSome = true
    ∧ (IntrinsicFR.compute_jones none [⟨"S1", []⟩] [1] [] "G" []).toOption.map
        (fun pr => pr.1.appliedSources) = some [⟨"S1", []⟩] :=
  ⟨rfl, rfl, rfl, rfl⟩

end Spec2Proof
